import Mathlib

/-!
Shallow embedding of the SCP client in `sshClient.go` (package goScp).

Bytes are modelled as `Nat`, byte sequences as `List Nat`, Go strings as
their byte sequences.  The two protocol goroutines (`CopyRemoteFileToLocal`
at lines 123-177 and `CopyLocalFileToRemote` at lines 200-206) are embedded
as functions from a schedule of read results to a trace of I/O events, so
that acknowledgment bytes, reads from the peer, file writes and fatal exits
are all visible in the trace.
-/

/-- Byte sequence of a Go string literal (ASCII contents assumed). -/
def strBytes (s : String) : List Nat := s.data.map Char.toNat

/-- Helper for `decimalBytes`: fuelled base-10 digit expansion. -/
def decimalDigitsAux : Nat → Nat → List Nat
  | 0, _ => []
  | fuel + 1, n => if n < 10 then [48 + n] else decimalDigitsAux fuel (n / 10) ++ [48 + n % 10]

/-- ASCII decimal representation of a natural number, as `fmt` prints an
`int` obtained from `len(content)` (always non-negative). -/
def decimalBytes (n : Nat) : List Nat := decimalDigitsAux (n + 1) n

/-- Model of `fmt.Fprintln(w, a, b, c)`: the operands separated by single
spaces, then a newline (byte 10). -/
def fprintln (args : List (List Nat)) : List Nat := List.intercalate [32] args ++ [10]

/-- Model of `fmt.Fprint(w, s)`: the raw bytes of `s`. -/
def fprint (s : List Nat) : List Nat := s

/-- The parsed metadata record extracted from an SCP control line
(`sshClient.go` lines 143-145). -/
structure ControlLine where
  permissionBits : List Nat
  sizeBytes : List Nat
  fileName : List Nat
deriving DecidableEq

/-- Model of Go `strings.Split(s, " ")`: split at every single space byte
(32); consecutive spaces yield empty fields, the empty string yields one
empty field. -/
def splitOnSpace : List Nat → List (List Nat)
  | [] => [[]]
  | b :: rest =>
      let r := splitOnSpace rest
      if b = 32 then [] :: r else (b :: r.headD []) :: r.tail

/-- Parsing of the control line, `sshClient.go` lines 141-145:
`scpStartLineArray := strings.Split(scpStartLine, " ")` followed by
`scpStartLineArray[0][1:]`, `scpStartLineArray[1]`, `scpStartLineArray[2]`.
`none` models the index-out-of-range panic: the slice `[0][1:]` panics when
the first field is empty, and `[1]`/`[2]` panic when there are fewer than
three fields.  Fields beyond the third are ignored. -/
def ParseControlLine (raw : List Nat) : Option ControlLine :=
  match splitOnSpace raw with
  | (_ :: perm) :: size :: name :: _ => some ⟨perm, size, name⟩
  | _ => none

/-- Formatting of a control line record, from `sshClient.go` line 203
(`fmt.Fprintln(writer, "C0644", len(content), filename)`): the permission
literal is the hard-coded `C0644`, so the record's own `permissionBits`
field is not consulted; a newline is appended by `Fprintln`. -/
def FormatControlLine (cl : ControlLine) : List Nat :=
  fprintln [strBytes "C0644", cl.sizeBytes, cl.fileName]

/-- Result of one `reader.Read(buf)` call: the bytes delivered and the
error value (`ok` = nil error, `eof` = io.EOF, `fatal` = any other error). -/
inductive ReadErr
  | ok
  | eof
  | fatal
deriving DecidableEq

/-- One read-call result in a schedule modelling the peer's output stream. -/
structure ReadResult where
  data : List Nat
  err : ReadErr
deriving DecidableEq

/-- Observable I/O events of the two goroutines.  `ackWrite` is
`writer.Write([]byte{0})`; `wireWrite` is any other write to the remote
stdin pipe; `readCall` records one `reader.Read` with its buffer size and
result; `fileCreate`/`fileAppend`/`fileSync` model the destination-file
operations (`createNewFile`, `writeParitalToFile`, `file.Sync`).
Modelled from the spec: `createNewFile` and `writeParitalToFile` are not
part of this source file; per the spec the former opens (creates/truncates)
the destination file at the given path and the latter appends the given
bytes to it.  `panicExit` is a runtime index panic, `fatalExit` is
`log.Fatal`; both terminate the process. -/
inductive Event
  | ackWrite
  | wireWrite (bytes : List Nat)
  | readCall (bufSize : Nat) (res : ReadResult)
  | fileCreate (path : List Nat)
  | fileAppend (bytes : List Nat)
  | fileSync
  | panicExit
  | fatalExit
deriving DecidableEq

/-- How the content-streaming loop (`sshClient.go` lines 159-171) ended:
normally on io.EOF, killed by `log.Fatalf` on another read error, or stuck
blocking on a read the schedule never answers. -/
inductive LoopExit
  | eofDone
  | fatalStop
  | starved
deriving DecidableEq

/-- How the whole background goroutine ended. -/
inductive RoutineEnd
  | finished
  | killed
  | stuck
deriving DecidableEq

/-- The content-streaming loop, `sshClient.go` lines 159-171: repeatedly
`reader.Read` into a 1-byte buffer; on a non-EOF error `log.Fatalf`; else
append the delivered bytes (`fileContents[:bytesRead]`) to the file and
write one acknowledgment byte; on io.EOF do the same but leave the loop. -/
def streamLoop : List ReadResult → List Event × LoopExit
  | [] => ([], LoopExit.starved)
  | r :: rest =>
      match r.err with
      | ReadErr.fatal => ([Event.readCall 1 r, Event.fatalExit], LoopExit.fatalStop)
      | ReadErr.eof =>
          ([Event.readCall 1 r, Event.fileAppend r.data, Event.ackWrite], LoopExit.eofDone)
      | ReadErr.ok =>
          let next := streamLoop rest
          (Event.readCall 1 r :: Event.fileAppend r.data :: Event.ackWrite :: next.1, next.2)

/-- Destination path chosen at `sshClient.go` lines 154-158:
`localFilePath + "/" + fileName` when no explicit local name was given,
otherwise `localFilePath + "/" + localFileName` (47 is the slash byte). -/
def destPath (localFilePath localFileName : List Nat) (cl : ControlLine) : List Nat :=
  if localFileName = [] then localFilePath ++ [47] ++ cl.fileName
  else localFilePath ++ [47] ++ localFileName

/-- The receive goroutine, `sshClient.go` lines 123-177: write one
acknowledgment byte, do a single `reader.Read` into the 100-byte control
buffer (a non-EOF error is fatal, EOF is tolerated), parse the delivered
bytes as the control line (an out-of-range field access panics), write one
acknowledgment byte, open the destination file, then run the streaming
loop; after a normal loop exit, `file.Sync`. -/
def recvRoutine (sched : List ReadResult) (localFilePath localFileName : List Nat) :
    List Event × RoutineEnd :=
  match sched with
  | [] => ([Event.ackWrite], RoutineEnd.stuck)
  | r :: rest =>
      match r.err with
      | ReadErr.fatal =>
          ([Event.ackWrite, Event.readCall 100 r, Event.fatalExit], RoutineEnd.killed)
      | _ =>
          match ParseControlLine r.data with
          | none => ([Event.ackWrite, Event.readCall 100 r, Event.panicExit], RoutineEnd.killed)
          | some cl =>
              let loop := streamLoop rest
              ([Event.ackWrite, Event.readCall 100 r, Event.ackWrite,
                  Event.fileCreate (destPath localFilePath localFileName cl)] ++
                loop.1 ++
                (match loop.2 with
                 | LoopExit.eofDone => [Event.fileSync]
                 | _ => []),
               (match loop.2 with
                | LoopExit.eofDone => RoutineEnd.finished
                | LoopExit.fatalStop => RoutineEnd.killed
                | LoopExit.starved => RoutineEnd.stuck))

/-- The send goroutine, `sshClient.go` lines 200-206: read the whole local
file (`ioutil.ReadFile`, error discarded, failed read yields empty
content), then write the control line via `Fprintln`, the raw content via
`Fprint`, and the terminator `"\x00"` via `Fprintln`. -/
def sendRoutine (fs : List Nat → Option (List Nat)) (localFilePath filename : List Nat) :
    List Event :=
  let content := (fs (localFilePath ++ [47] ++ filename)).getD []
  [Event.wireWrite (fprintln [strBytes "C0644", decimalBytes content.length, filename]),
   Event.wireWrite (fprint content),
   Event.wireWrite (fprintln [[0]])]

/-- Caller-visible outcome of one of the exported transfer functions. -/
inductive RunOutcome
  | returned (err : Option (List Nat))
  | processExit
  | blocked
deriving DecidableEq

/-- `CopyRemoteFileToLocal`, `sshClient.go` lines 101-183, seen from the
caller.  `newSession`, `stdinPipe`, `stdoutPipe` are `some msg` when the
corresponding setup call fails.  A session failure is `log.Fatal`; a pipe
failure is returned as an error; otherwise the function waits for the
goroutine and returns nil, never inspecting what happened on the wire
(`session.Run`'s result at line 179 is discarded). -/
def CopyRemoteFileToLocal (newSession stdinPipe stdoutPipe : Option (List Nat))
    (sched : List ReadResult) (localFilePath localFileName : List Nat) : RunOutcome :=
  match newSession with
  | some _ => RunOutcome.processExit
  | none =>
      match stdinPipe with
      | some e => RunOutcome.returned (some e)
      | none =>
          match stdoutPipe with
          | some e => RunOutcome.returned (some e)
          | none =>
              match (recvRoutine sched localFilePath localFileName).2 with
              | RoutineEnd.finished => RunOutcome.returned none
              | RoutineEnd.killed => RunOutcome.processExit
              | RoutineEnd.stuck => RunOutcome.blocked

/-- `CopyLocalFileToRemote`, `sshClient.go` lines 185-209, seen from the
caller: a session failure is `log.Fatal`, a stdin-pipe failure is returned,
and otherwise the function returns nil unconditionally (line 209). -/
def CopyLocalFileToRemote (newSession stdinPipe : Option (List Nat)) : RunOutcome :=
  match newSession with
  | some _ => RunOutcome.processExit
  | none =>
      match stdinPipe with
      | some e => RunOutcome.returned (some e)
      | none => RunOutcome.returned none

/-- Bytes an event contributes to the remote stdin pipe: an acknowledgment
is the single byte 0, a wire write its payload. -/
def eventWireBytes : Event → List Nat
  | Event.ackWrite => [0]
  | Event.wireWrite bs => bs
  | _ => []

/-- All bytes a trace writes to the remote stdin pipe, in order. -/
def wireBytesOf (tr : List Event) : List Nat := (tr.map eventWireBytes).flatten

/-- All bytes a trace appends to the destination file, in order. -/
def fileBytesOf (tr : List Event) : List Nat :=
  (tr.map (fun e => match e with | Event.fileAppend bs => bs | _ => [])).flatten

/-- Number of acknowledgment bytes a trace writes. -/
def ackCount (tr : List Event) : Nat := tr.countP (fun e => e = Event.ackWrite)

/-- Number of reads from the peer a trace performs. -/
def readCount (tr : List Event) : Nat :=
  tr.countP (fun e => match e with | Event.readCall _ _ => true | _ => false)

/-- Number of reads performed with the 100-byte control-line buffer. -/
def readCount100 (tr : List Event) : Nat :=
  tr.countP (fun e => match e with | Event.readCall 100 _ => true | _ => false)

/-- The bytes delivered by the first read a trace performs. -/
def firstReadData (tr : List Event) : List Nat :=
  match tr.filterMap (fun e => match e with | Event.readCall _ r => some r.data | _ => none) with
  | [] => []
  | d :: _ => d

/-- Modelled from the spec: the spec's description of `AwaitControlLine`
(reads from the peer until a read error, including end-of-stream, or until
the 100-byte buffer fills, and accumulates the delivered bytes).  This is
the behaviour the spec ascribes to the control-line read, to be compared
with what the code does. -/
def untilErrorOrFull (cap : Nat) : List ReadResult → List Nat
  | [] => []
  | r :: rest =>
      match r.err with
      | ReadErr.ok =>
          if cap ≤ r.data.length then r.data.take cap
          else r.data ++ untilErrorOrFull (cap - r.data.length) rest
      | _ => r.data.take cap

/-! Helper lemmas about the field splitter. -/

theorem splitOnSpace_no_space (a : List Nat) (h : 32 ∉ a) : splitOnSpace a = [a] := by
  induction a with
  | nil => rfl
  | cons b rest ih =>
      have hb : ¬ b = 32 := fun e => h (by simp [e])
      have hr : 32 ∉ rest := fun e => h (by simp [e])
      simp [splitOnSpace, hb, ih hr]

theorem splitOnSpace_append (a b : List Nat) (h : 32 ∉ a) :
    splitOnSpace (a ++ 32 :: b) = a :: splitOnSpace b := by
  induction a with
  | nil => simp [splitOnSpace]
  | cons c rest ih =>
      have hc : ¬ c = 32 := fun e => h (by simp [e])
      have hr : 32 ∉ rest := fun e => h (by simp [e])
      simp [splitOnSpace, hc, ih hr]

theorem strBytes_C0644 : strBytes "C0644" = 67 :: strBytes "0644" := by decide

theorem strBytes_C0644_space : strBytes "C0644 " = strBytes "C0644" ++ [32] := by decide

theorem strBytes_C0644_zero_space : strBytes "C0644 0 " = strBytes "C0644" ++ [32, 48, 32] := by
  decide

/-- C1: for every local file content and filename, the send goroutine
writes to the remote write-sink exactly the control line
`"C0644 " ++ decimal(length content) ++ " " ++ filename ++ "\n"`, then the
raw content bytes, then the terminator: one null byte and one newline; in
particular for empty content the line declares size 0 and the content
section is empty, immediately followed by the terminator. -/
theorem C1_sendfile_wire (fs : List Nat → Option (List Nat))
    (localFilePath filename content : List Nat)
    (h : fs (localFilePath ++ [47] ++ filename) = some content) :
    wireBytesOf (sendRoutine fs localFilePath filename) =
      (strBytes "C0644 " ++ decimalBytes content.length ++ [32] ++ filename ++ [10])
        ++ content ++ [0, 10]
    ∧ (content = [] →
        wireBytesOf (sendRoutine fs localFilePath filename) =
          (strBytes "C0644 0 " ++ filename ++ [10]) ++ [0, 10]) := by
  have h2 : fs (localFilePath ++ 47 :: filename) = some content := by
    simpa using h
  have hget : (fs (localFilePath ++ 47 :: filename)).getD [] = content := by
    rw [h2]
    rfl
  constructor
  · simp [sendRoutine, hget, wireBytesOf, eventWireBytes, fprintln, fprint, List.intercalate,
      List.intersperse, strBytes_C0644_space]
  · intro hc
    subst hc
    simp [sendRoutine, hget, wireBytesOf, eventWireBytes, fprintln, fprint, List.intercalate,
      List.intersperse, strBytes_C0644_zero_space, decimalBytes, decimalDigitsAux]

theorem C1_sendfile_wire_witness :
    wireBytesOf (sendRoutine
        (fun p => if p = strBytes "d/f" then some [250, 0, 10] else none)
        (strBytes "d") (strBytes "f")) =
      (strBytes "C0644 " ++ decimalBytes 3 ++ [32] ++ strBytes "f" ++ [10])
        ++ [250, 0, 10] ++ [0, 10]
    ∧ ([250, 0, 10] = ([] : List Nat) →
        wireBytesOf (sendRoutine
            (fun p => if p = strBytes "d/f" then some [250, 0, 10] else none)
            (strBytes "d") (strBytes "f")) =
          (strBytes "C0644 0 " ++ strBytes "f" ++ [10]) ++ [0, 10]) :=
  C1_sendfile_wire (fun p => if p = strBytes "d/f" then some [250, 0, 10] else none)
    (strBytes "d") (strBytes "f") [250, 0, 10] (by decide)

/-- C3 counterexample: the well-formed control line `"C0644 5 a\n"` (mode
`0644`, decimal size `5`, space-free filename `a`) does not round-trip:
parsing keeps the terminating newline inside the filename field and
formatting appends a newline of its own, so `Format (Parse line) ≠ line`. -/
theorem C3_roundtrip_counterexample :
    ParseControlLine (strBytes "C0644 5 a\n") =
        some ⟨strBytes "0644", strBytes "5", strBytes "a\n"⟩
    ∧ FormatControlLine ⟨strBytes "0644", strBytes "5", strBytes "a\n"⟩ ≠
        strBytes "C0644 5 a\n" := by
  decide

/-- C3 (amended): for a well-formed control line
`C<mode><space><size><space><name>\n` with space-free mode, size and name,
formatting the parse result reproduces the line with the mode replaced by
the fixed literal `0644` and one extra newline appended: parsing keeps the
line's own newline at the end of the filename field, and formatting both
hard-codes the permission literal and terminates with a fresh newline. -/
theorem C3_roundtrip_amended (mode size name : List Nat)
    (hm : 32 ∉ mode) (hs : 32 ∉ size) (hn : 32 ∉ name) :
    (ParseControlLine ([67] ++ mode ++ [32] ++ size ++ [32] ++ name ++ [10])).map
        FormatControlLine =
      some ([67] ++ strBytes "0644" ++ [32] ++ size ++ [32] ++ (name ++ [10]) ++ [10]) := by
  have hsplit :
      splitOnSpace ([67] ++ mode ++ [32] ++ size ++ [32] ++ name ++ [10]) =
        (67 :: mode) :: size :: [name ++ [10]] := by
    have h10 : (32 : Nat) ∉ name ++ [10] := by
      intro hmem
      rcases List.mem_append.mp hmem with h | h
      · exact hn h
      · simp at h
    have hmode : (32 : Nat) ∉ (67 : Nat) :: mode := by
      intro hmem
      rcases List.mem_cons.mp hmem with h | h
      · exact absurd h.symm (by decide)
      · exact hm h
    calc splitOnSpace ([67] ++ mode ++ [32] ++ size ++ [32] ++ name ++ [10])
        = splitOnSpace ((67 :: mode) ++ 32 :: (size ++ 32 :: (name ++ [10]))) := by
          simp
      _ = (67 :: mode) :: splitOnSpace (size ++ 32 :: (name ++ [10])) :=
          splitOnSpace_append _ _ hmode
      _ = (67 :: mode) :: size :: splitOnSpace (name ++ [10]) := by
          rw [splitOnSpace_append _ _ hs]
      _ = (67 :: mode) :: size :: [name ++ [10]] := by
          rw [splitOnSpace_no_space _ h10]
  have hparse : ParseControlLine ([67] ++ mode ++ [32] ++ size ++ [32] ++ name ++ [10]) =
      some ⟨mode, size, name ++ [10]⟩ := by
    unfold ParseControlLine
    rw [hsplit]
  rw [hparse]
  simp [FormatControlLine, fprintln, List.intercalate, List.intersperse, strBytes_C0644]

theorem C3_roundtrip_amended_witness :
    (ParseControlLine ([67] ++ strBytes "0755" ++ [32] ++ strBytes "12" ++ [32] ++
        strBytes "a.txt" ++ [10])).map FormatControlLine =
      some ([67] ++ strBytes "0644" ++ [32] ++ strBytes "12" ++ [32] ++
        (strBytes "a.txt" ++ [10]) ++ [10]) :=
  C3_roundtrip_amended (strBytes "0755") (strBytes "12") (strBytes "a.txt")
    (by decide) (by decide) (by decide)

/-- C8: a raw control line with fewer than three space-separated fields, or
with an empty first field, makes the parse perform an out-of-range access
(modelled as `none`); no validation is done, and in a run the resulting
index error kills the process rather than being returned to the caller as
an error value. -/
theorem C8_malformed_line_panics (raw : List Nat)
    (h : (splitOnSpace raw).length < 3 ∨ (splitOnSpace raw).headD [] = []) :
    ParseControlLine raw = none
    ∧ (∀ rest localFilePath localFileName,
        CopyRemoteFileToLocal none none none (⟨raw, ReadErr.ok⟩ :: rest)
          localFilePath localFileName = RunOutcome.processExit)
    ∧ (∀ rest localFilePath localFileName e,
        CopyRemoteFileToLocal none none none (⟨raw, ReadErr.ok⟩ :: rest)
          localFilePath localFileName ≠ RunOutcome.returned e) := by
  have hnone : ParseControlLine raw = none := by
    unfold ParseControlLine
    rcases hsp : splitOnSpace raw with _ | ⟨f0, fs0⟩
    · rfl
    · rcases fs0 with _ | ⟨f1, fs1⟩
      · cases f0 <;> rfl
      · rcases fs1 with _ | ⟨f2, fs2⟩
        · cases f0 <;> rfl
        · rcases h with hlen | hhead
          · rw [hsp] at hlen
            simp at hlen
            omega
          · rw [hsp] at hhead
            simp at hhead
            subst hhead
            rfl
  refine ⟨hnone, ?_, ?_⟩
  · intro rest localFilePath localFileName
    simp [CopyRemoteFileToLocal, recvRoutine, hnone]
  · intro rest localFilePath localFileName e
    simp [CopyRemoteFileToLocal, recvRoutine, hnone]

theorem C8_malformed_line_panics_witness :
    ParseControlLine (strBytes "C0644") = none
    ∧ (∀ rest localFilePath localFileName,
        CopyRemoteFileToLocal none none none (⟨strBytes "C0644", ReadErr.ok⟩ :: rest)
          localFilePath localFileName = RunOutcome.processExit)
    ∧ (∀ rest localFilePath localFileName e,
        CopyRemoteFileToLocal none none none (⟨strBytes "C0644", ReadErr.ok⟩ :: rest)
          localFilePath localFileName ≠ RunOutcome.returned e) :=
  C8_malformed_line_panics (strBytes "C0644") (by decide)

/-- C9 counterexample: the receive engine does not read until an error or a
full buffer before parsing.  On a schedule whose first read delivers the
nine bytes `"C0644 5 a"` with no error and whose second read delivers more
bytes, the engine parses only the first read's bytes, while the
until-error-or-full accumulation the spec describes would also include the
second read's bytes. -/
theorem C9_until_error_counterexample :
    firstReadData (recvRoutine
        [⟨strBytes "C0644 5 a", ReadErr.ok⟩, ⟨strBytes "X", ReadErr.ok⟩, ⟨[], ReadErr.eof⟩]
        [] []).1 ≠
      untilErrorOrFull 100
        [⟨strBytes "C0644 5 a", ReadErr.ok⟩, ⟨strBytes "X", ReadErr.ok⟩, ⟨[], ReadErr.eof⟩] := by
  decide

/-- Number of events of a stream-loop trace that read with the control
buffer: the loop always reads into the 1-byte buffer, never the 100-byte
one. -/
theorem streamLoop_readCount100 (sched : List ReadResult) :
    readCount100 (streamLoop sched).1 = 0 := by
  induction sched with
  | nil => rfl
  | cons r rest ih =>
      cases hr : r.err
      all_goals simp [streamLoop, hr, readCount100, List.countP_cons]
      all_goals simpa [readCount100] using ih

/-- C9 (amended): before parsing, the receive engine performs exactly one
read with the 100-byte control buffer, and the bytes delivered by that
single read — not an until-error-or-full accumulation — are what is
interpreted as the control line. -/
theorem C9_single_control_read (r : ReadResult) (rest : List ReadResult)
    (localFilePath localFileName : List Nat) :
    firstReadData (recvRoutine (r :: rest) localFilePath localFileName).1 = r.data
    ∧ readCount100 (recvRoutine (r :: rest) localFilePath localFileName).1 = 1 := by
  cases hr : r.err
  case fatal =>
    constructor <;> simp [recvRoutine, hr, firstReadData, readCount100, List.countP_cons]
  all_goals
    cases hp : ParseControlLine r.data
    all_goals constructor <;>
      simp [recvRoutine, hr, hp, firstReadData, readCount100, List.countP_cons,
        streamLoop_readCount100]
  all_goals
    cases hloop : (streamLoop rest).2 <;>
      simp [hloop, readCount100, List.countP_cons, List.countP_append,
        streamLoop_readCount100]
  all_goals
    intro a ha
    have h0 := streamLoop_readCount100 rest
    rw [readCount100, List.countP_eq_zero] at h0
    simpa using h0 a ha

/-- The three events one non-EOF, non-fatal 1-byte read produces in the
content-streaming loop: the read, the append of the delivered bytes, and
the acknowledgment. -/
def perReadEvents (x : ReadResult) : List Event :=
  [Event.readCall 1 x, Event.fileAppend x.data, Event.ackWrite]

/-- Trace of a loop run that sees error-free reads `pre` and then an EOF
read delivering `d`: each read is followed by its append and its
acknowledgment, including the final EOF read. -/
theorem streamLoop_shape (pre : List ReadResult) (d : List Nat) (rest : List ReadResult)
    (h : ∀ x ∈ pre, x.err = ReadErr.ok) :
    streamLoop (pre ++ ⟨d, ReadErr.eof⟩ :: rest) =
      ((pre.map perReadEvents).flatten ++
        [Event.readCall 1 ⟨d, ReadErr.eof⟩, Event.fileAppend d, Event.ackWrite],
       LoopExit.eofDone) := by
  induction pre with
  | nil => simp [streamLoop]
  | cons x pre ih =>
      have hx : x.err = ReadErr.ok := h x (List.mem_cons_self ..)
      have hp : ∀ y ∈ pre, y.err = ReadErr.ok := fun y hy => h y (List.mem_cons_of_mem _ hy)
      simp [streamLoop, hx, ih hp, perReadEvents]

/-- A loop run whose reads are error-free until a non-EOF read error is
killed by `log.Fatalf`. -/
theorem streamLoop_fatal_exit (pre : List ReadResult) (d : List Nat) (rest : List ReadResult)
    (h : ∀ x ∈ pre, x.err = ReadErr.ok) :
    (streamLoop (pre ++ ⟨d, ReadErr.fatal⟩ :: rest)).2 = LoopExit.fatalStop := by
  induction pre with
  | nil => simp [streamLoop]
  | cons x pre ih =>
      have hx : x.err = ReadErr.ok := h x (List.mem_cons_self ..)
      have hp : ∀ y ∈ pre, y.err = ReadErr.ok := fun y hy => h y (List.mem_cons_of_mem _ hy)
      simp [streamLoop, hx, ih hp]

/-- The loop ends normally exactly when the schedule reaches an EOF read
after error-free reads. -/
theorem streamLoop_eofDone_iff (sched : List ReadResult) :
    (streamLoop sched).2 = LoopExit.eofDone ↔
      ∃ pre d rest, sched = pre ++ ⟨d, ReadErr.eof⟩ :: rest ∧ ∀ x ∈ pre, x.err = ReadErr.ok := by
  induction sched with
  | nil =>
      simp only [streamLoop]
      constructor
      · intro h
        exact absurd h (by decide)
      · rintro ⟨pre, d, rest, heq, -⟩
        exact absurd heq (by simp)
  | cons r rest ih =>
      cases hr : r.err
      case eof =>
        constructor
        · intro _
          refine ⟨[], r.data, rest, ?_, by simp⟩
          cases r
          simp at hr
          simp [hr]
        · intro _
          simp [streamLoop, hr]
      case fatal =>
        constructor
        · intro h
          rw [streamLoop] at h
          simp [hr] at h
        · rintro ⟨pre, d, rest0, heq, hok⟩
          cases pre with
          | nil =>
              simp at heq
              rw [heq.1] at hr
              simp at hr
          | cons p pre0 =>
              simp at heq
              have : r.err = ReadErr.ok := heq.1 ▸ hok p (List.mem_cons_self ..)
              rw [hr] at this
              exact absurd this (by decide)
      case ok =>
        have hstep : (streamLoop (r :: rest)).2 = (streamLoop rest).2 := by
          simp [streamLoop, hr]
        rw [hstep, ih]
        constructor
        · rintro ⟨pre, d, rest0, heq, hok⟩
          refine ⟨r :: pre, d, rest0, by simp [heq], ?_⟩
          intro x hx
          rcases List.mem_cons.mp hx with h | h
          · rw [h, hr]
          · exact hok x h
        · rintro ⟨pre, d, rest0, heq, hok⟩
          cases pre with
          | nil =>
              simp at heq
              rw [heq.1] at hr
              simp at hr
          | cons p pre0 =>
              simp at heq
              refine ⟨pre0, d, rest0, heq.2, fun x hx => hok x (List.mem_cons_of_mem _ hx)⟩

/-- The receive goroutine on a schedule whose control-line read parses and
is not a fatal read error: four fixed events, then the loop trace, then the
sync when the loop ended on EOF. -/
theorem recvRoutine_cons_trace (r : ReadResult) (rest : List ReadResult)
    (localFilePath localFileName : List Nat) (cl : ControlLine)
    (hp : ParseControlLine r.data = some cl) (hf : r.err ≠ ReadErr.fatal) :
    recvRoutine (r :: rest) localFilePath localFileName =
      ([Event.ackWrite, Event.readCall 100 r, Event.ackWrite,
          Event.fileCreate (destPath localFilePath localFileName cl)] ++
        (streamLoop rest).1 ++
        (match (streamLoop rest).2 with
         | LoopExit.eofDone => [Event.fileSync]
         | _ => []),
       (match (streamLoop rest).2 with
        | LoopExit.eofDone => RoutineEnd.finished
        | LoopExit.fatalStop => RoutineEnd.killed
        | LoopExit.starved => RoutineEnd.stuck)) := by
  cases hr : r.err
  case fatal => exact absurd hr hf
  all_goals simp [recvRoutine, hr, hp]

/-- C2: the content-streaming loop of the receive engine terminates exactly
when the read source signals end-of-stream (first conjunct: the loop ends
normally iff the schedule reaches an EOF read after error-free reads —
the declared size never enters the condition), and the declared size parsed
from the control line does not change the loop's events or when it stops
(second conjunct: two runs whose control-line reads parse to any two
records, in particular records differing only in the declared size, have
identical traces after the control-line phase and identical outcomes). -/
theorem C2_loop_eof_driven :
    (∀ sched, (streamLoop sched).2 = LoopExit.eofDone ↔
        ∃ pre d rest, sched = pre ++ ⟨d, ReadErr.eof⟩ :: rest ∧ ∀ x ∈ pre, x.err = ReadErr.ok)
    ∧ (∀ (r₁ r₂ : ReadResult) (rest : List ReadResult)
        (localFilePath localFileName : List Nat) (cl₁ cl₂ : ControlLine),
        ParseControlLine r₁.data = some cl₁ → ParseControlLine r₂.data = some cl₂ →
        r₁.err ≠ ReadErr.fatal → r₂.err ≠ ReadErr.fatal →
        ((recvRoutine (r₁ :: rest) localFilePath localFileName).1).drop 4 =
            ((recvRoutine (r₂ :: rest) localFilePath localFileName).1).drop 4
          ∧ (recvRoutine (r₁ :: rest) localFilePath localFileName).2 =
            (recvRoutine (r₂ :: rest) localFilePath localFileName).2) := by
  constructor
  · exact streamLoop_eofDone_iff
  · intro r₁ r₂ rest localFilePath localFileName cl₁ cl₂ hp₁ hp₂ hf₁ hf₂
    rw [recvRoutine_cons_trace r₁ rest localFilePath localFileName cl₁ hp₁ hf₁,
      recvRoutine_cons_trace r₂ rest localFilePath localFileName cl₂ hp₂ hf₂]
    constructor
    · simp
    · rfl

theorem C2_loop_eof_driven_witness :
    ((streamLoop [⟨[7], ReadErr.ok⟩, ⟨[], ReadErr.eof⟩]).2 = LoopExit.eofDone)
    ∧ ((recvRoutine [⟨strBytes "C0644 9 a", ReadErr.ok⟩, ⟨[], ReadErr.eof⟩] [] []).1).drop 4 =
        ((recvRoutine [⟨strBytes "C0644 2 a", ReadErr.ok⟩, ⟨[], ReadErr.eof⟩] [] []).1).drop 4 :=
  ⟨(C2_loop_eof_driven.1 [⟨[7], ReadErr.ok⟩, ⟨[], ReadErr.eof⟩]).mpr
      ⟨[⟨[7], ReadErr.ok⟩], [], [], rfl, by decide⟩,
    (C2_loop_eof_driven.2 ⟨strBytes "C0644 9 a", ReadErr.ok⟩ ⟨strBytes "C0644 2 a", ReadErr.ok⟩
      [⟨[], ReadErr.eof⟩] [] [] ⟨strBytes "0644", strBytes "9", strBytes "a"⟩
      ⟨strBytes "0644", strBytes "2", strBytes "a"⟩ (by decide) (by decide)
      (by decide) (by decide)).1⟩

/-- Acknowledgments in the per-read loop trace: one per read. -/
theorem ackCount_perReadEvents (pre : List ReadResult) :
    ackCount (pre.map perReadEvents).flatten = pre.length := by
  induction pre with
  | nil => rfl
  | cons x pre ih =>
      simp only [List.map_cons, List.flatten_cons, perReadEvents]
      rw [ackCount, List.countP_append]
      rw [ackCount] at ih
      rw [ih]
      simp [List.countP_cons]
      omega

/-- File bytes in the per-read loop trace: the delivered data, in order. -/
theorem fileBytesOf_perReadEvents (pre : List ReadResult) :
    fileBytesOf (pre.map perReadEvents).flatten = (pre.map ReadResult.data).flatten := by
  induction pre with
  | nil => rfl
  | cons x pre ih =>
      simp only [List.map_cons, List.flatten_cons, perReadEvents]
      rw [fileBytesOf, List.map_append, List.flatten_append]
      rw [fileBytesOf] at ih
      rw [ih]
      simp [fileBytesOf]

/-- C4: in a transfer run that completes normally, the receive goroutine
writes exactly one acknowledgment before the control-line read, exactly one
after parsing the control line, and exactly one after each content read it
performs (including the final EOF read), visible positionally in the first
conjunct's trace equation and numerically in the second (the loop performs
`pre.length + 1` reads); the send goroutine writes zero acknowledgment
bytes and performs zero reads from the peer. -/
theorem C4_ack_discipline :
    (∀ (r : ReadResult) (pre : List ReadResult) (d : List Nat)
        (localFilePath localFileName : List Nat) (cl : ControlLine),
        ParseControlLine r.data = some cl → r.err ≠ ReadErr.fatal →
        (∀ x ∈ pre, x.err = ReadErr.ok) →
        (recvRoutine (r :: (pre ++ [⟨d, ReadErr.eof⟩])) localFilePath localFileName).1 =
            [Event.ackWrite, Event.readCall 100 r, Event.ackWrite,
              Event.fileCreate (destPath localFilePath localFileName cl)] ++
              (pre.map perReadEvents).flatten ++
              [Event.readCall 1 ⟨d, ReadErr.eof⟩, Event.fileAppend d, Event.ackWrite,
                Event.fileSync]
          ∧ ackCount
              (recvRoutine (r :: (pre ++ [⟨d, ReadErr.eof⟩])) localFilePath localFileName).1 =
              2 + (pre.length + 1))
    ∧ (∀ (fs : List Nat → Option (List Nat)) (localFilePath filename : List Nat),
        ackCount (sendRoutine fs localFilePath filename) = 0
          ∧ readCount (sendRoutine fs localFilePath filename) = 0) := by
  constructor
  · intro r pre d localFilePath localFileName cl hp hf hok
    have hshape := streamLoop_shape pre d [] hok
    have htrace :
        (recvRoutine (r :: (pre ++ [⟨d, ReadErr.eof⟩])) localFilePath localFileName).1 =
          [Event.ackWrite, Event.readCall 100 r, Event.ackWrite,
            Event.fileCreate (destPath localFilePath localFileName cl)] ++
            (pre.map perReadEvents).flatten ++
            [Event.readCall 1 ⟨d, ReadErr.eof⟩, Event.fileAppend d, Event.ackWrite,
              Event.fileSync] := by
      rw [recvRoutine_cons_trace r (pre ++ [ReadResult.mk d ReadErr.eof]) localFilePath
        localFileName cl hp hf]
      rw [hshape]
      simp
    refine ⟨htrace, ?_⟩
    rw [htrace]
    rw [ackCount, List.countP_append, List.countP_append]
    have hmid := ackCount_perReadEvents pre
    rw [ackCount] at hmid
    rw [hmid]
    simp [List.countP_cons]
    omega
  · intro fs localFilePath filename
    constructor <;> simp [sendRoutine, ackCount, readCount, List.countP_cons]

theorem C4_ack_discipline_witness :
    (recvRoutine
        [⟨strBytes "C0644 2 a", ReadErr.ok⟩, ⟨[65], ReadErr.ok⟩, ⟨[66], ReadErr.eof⟩]
        (strBytes "tmp") []).1 =
      [Event.ackWrite, Event.readCall 100 ⟨strBytes "C0644 2 a", ReadErr.ok⟩, Event.ackWrite,
        Event.fileCreate (destPath (strBytes "tmp") []
          ⟨strBytes "0644", strBytes "2", strBytes "a"⟩)] ++
        ([⟨[65], ReadErr.ok⟩].map perReadEvents).flatten ++
        [Event.readCall 1 ⟨[66], ReadErr.eof⟩, Event.fileAppend [66], Event.ackWrite,
          Event.fileSync]
    ∧ ackCount (recvRoutine
        [⟨strBytes "C0644 2 a", ReadErr.ok⟩, ⟨[65], ReadErr.ok⟩, ⟨[66], ReadErr.eof⟩]
        (strBytes "tmp") []).1 = 2 + ([ReadResult.mk [65] ReadErr.ok].length + 1) :=
  C4_ack_discipline.1 (ReadResult.mk (strBytes "C0644 2 a") ReadErr.ok)
    [ReadResult.mk [65] ReadErr.ok] [66] (strBytes "tmp") []
    (ControlLine.mk (strBytes "0644") (strBytes "2") (strBytes "a"))
    (by decide) (by decide) (by decide)

/-- C5: the bytes appended to the destination file by the streaming loop
are exactly the concatenation, in order, of all bytes the read source
delivered, including bytes delivered together with the end-of-stream
signal on the final read. -/
theorem C5_file_gets_all_delivered_bytes (pre : List ReadResult) (d : List Nat)
    (rest : List ReadResult) (h : ∀ x ∈ pre, x.err = ReadErr.ok) :
    fileBytesOf (streamLoop (pre ++ ⟨d, ReadErr.eof⟩ :: rest)).1 =
      (pre.map ReadResult.data).flatten ++ d := by
  rw [streamLoop_shape pre d rest h]
  rw [fileBytesOf, List.map_append, List.flatten_append]
  have hmid := fileBytesOf_perReadEvents pre
  rw [fileBytesOf] at hmid
  rw [hmid]
  simp [fileBytesOf]

theorem C5_file_gets_all_delivered_bytes_witness :
    fileBytesOf (streamLoop ([⟨[1], ReadErr.ok⟩, ⟨[2], ReadErr.ok⟩] ++
        ⟨[3], ReadErr.eof⟩ :: [])).1 =
      (([⟨[1], ReadErr.ok⟩, ⟨[2], ReadErr.ok⟩] : List ReadResult).map ReadResult.data).flatten
        ++ [3] :=
  C5_file_gets_all_delivered_bytes [⟨[1], ReadErr.ok⟩, ⟨[2], ReadErr.ok⟩] [3] [] (by decide)

/-- Schedule in which the peer delivers the control line
`C0644 5 hello.txt` in the first read and then five content bytes, one per
1-byte loop read, before signalling end-of-stream. -/
def helloSched (b1 b2 b3 b4 b5 : Nat) : List ReadResult :=
  [⟨strBytes "C0644 5 hello.txt", ReadErr.ok⟩, ⟨[b1], ReadErr.ok⟩, ⟨[b2], ReadErr.ok⟩,
   ⟨[b3], ReadErr.ok⟩, ⟨[b4], ReadErr.ok⟩, ⟨[b5], ReadErr.ok⟩, ⟨[], ReadErr.eof⟩]

/-- C6: when the caller supplies an empty local filename and the peer sends
`C0644 5 hello.txt` followed by five content bytes, the engine creates the
destination file at `localFilePath ++ "/" ++ "hello.txt"` (the peer-reported
name) and appends exactly those five bytes; when a non-empty local filename
is supplied the file is created at `localFilePath ++ "/" ++ localFileName`. -/
theorem C6_peer_reported_name (localFilePath localFileName : List Nat)
    (b1 b2 b3 b4 b5 : Nat) (h : localFileName ≠ []) :
    (Event.fileCreate (localFilePath ++ [47] ++ strBytes "hello.txt") ∈
        (recvRoutine (helloSched b1 b2 b3 b4 b5) localFilePath []).1
      ∧ fileBytesOf (recvRoutine (helloSched b1 b2 b3 b4 b5) localFilePath []).1 =
          [b1, b2, b3, b4, b5])
    ∧ Event.fileCreate (localFilePath ++ [47] ++ localFileName) ∈
        (recvRoutine (helloSched b1 b2 b3 b4 b5) localFilePath localFileName).1 := by
  have hp : ParseControlLine (strBytes "C0644 5 hello.txt") =
      some (ControlLine.mk (strBytes "0644") (strBytes "5") (strBytes "hello.txt")) := by
    decide
  refine ⟨⟨?_, ?_⟩, ?_⟩
  · simp [helloSched, recvRoutine, hp, streamLoop, destPath]
  · simp [helloSched, recvRoutine, hp, streamLoop, destPath, fileBytesOf]
  · simp [helloSched, recvRoutine, hp, streamLoop, destPath, h]

theorem C6_peer_reported_name_witness :
    (Event.fileCreate (strBytes "tmp" ++ [47] ++ strBytes "hello.txt") ∈
        (recvRoutine (helloSched 1 2 3 4 5) (strBytes "tmp") []).1
      ∧ fileBytesOf (recvRoutine (helloSched 1 2 3 4 5) (strBytes "tmp") []).1 =
          [1, 2, 3, 4, 5])
    ∧ Event.fileCreate (strBytes "tmp" ++ [47] ++ strBytes "out.bin") ∈
        (recvRoutine (helloSched 1 2 3 4 5) (strBytes "tmp") (strBytes "out.bin")).1 :=
  C6_peer_reported_name (strBytes "tmp") (strBytes "out.bin") 1 2 3 4 5 (by decide)

/-- C7: the exported transfer functions return an error value only when
acquiring the stdin/stdout pipes fails (first and fourth conjuncts); when
pipe acquisition succeeds they never return an error, whatever happens on
the wire (second and fifth conjuncts); and a non-EOF transport read failure
during streaming terminates the whole process instead of being returned
(third conjunct). -/
theorem C7_error_boundary :
    (∀ (newSession stdinPipe stdoutPipe : Option (List Nat)) (sched : List ReadResult)
        (localFilePath localFileName e : List Nat),
        CopyRemoteFileToLocal newSession stdinPipe stdoutPipe sched localFilePath
            localFileName = RunOutcome.returned (some e) →
          stdinPipe = some e ∨ stdoutPipe = some e)
    ∧ (∀ (sched : List ReadResult) (localFilePath localFileName e : List Nat),
        CopyRemoteFileToLocal none none none sched localFilePath localFileName ≠
          RunOutcome.returned (some e))
    ∧ (∀ (r : ReadResult) (pre : List ReadResult) (d : List Nat) (rest : List ReadResult)
        (localFilePath localFileName : List Nat) (cl : ControlLine),
        ParseControlLine r.data = some cl → r.err ≠ ReadErr.fatal →
        (∀ x ∈ pre, x.err = ReadErr.ok) →
        CopyRemoteFileToLocal none none none (r :: (pre ++ ⟨d, ReadErr.fatal⟩ :: rest))
          localFilePath localFileName = RunOutcome.processExit)
    ∧ (∀ (newSession stdinPipe : Option (List Nat)) (e : List Nat),
        CopyLocalFileToRemote newSession stdinPipe = RunOutcome.returned (some e) →
          stdinPipe = some e)
    ∧ CopyLocalFileToRemote none none = RunOutcome.returned none := by
  refine ⟨?_, ?_, ?_, ?_, rfl⟩
  · intro ns si so sched lp ln e h
    cases ns with
    | some v => simp [CopyRemoteFileToLocal] at h
    | none =>
        cases si with
        | some v =>
            simp [CopyRemoteFileToLocal] at h
            left
            rw [h]
        | none =>
            cases so with
            | some v =>
                simp [CopyRemoteFileToLocal] at h
                right
                rw [h]
            | none =>
                cases hrr : (recvRoutine sched lp ln).2 <;>
                  simp [CopyRemoteFileToLocal, hrr] at h
  · intro sched lp ln e
    cases hrr : (recvRoutine sched lp ln).2 <;> simp [CopyRemoteFileToLocal, hrr]
  · intro r pre d rest lp ln cl hp hf hok
    have hfatal := streamLoop_fatal_exit pre d rest hok
    have hend : (recvRoutine (r :: (pre ++ ⟨d, ReadErr.fatal⟩ :: rest)) lp ln).2 =
        RoutineEnd.killed := by
      rw [recvRoutine_cons_trace r (pre ++ ReadResult.mk d ReadErr.fatal :: rest) lp ln cl
        hp hf]
      rw [hfatal]
    simp [CopyRemoteFileToLocal, hend]
  · intro ns si e h
    cases ns with
    | some v => simp [CopyLocalFileToRemote] at h
    | none =>
        cases si with
        | some v =>
            simp [CopyLocalFileToRemote] at h
            rw [h]
        | none => simp [CopyLocalFileToRemote] at h

theorem C7_error_boundary_witness :
    CopyRemoteFileToLocal none none none
      (⟨strBytes "C0644 1 a", ReadErr.ok⟩ :: ([] ++ ⟨[9], ReadErr.fatal⟩ :: []))
      (strBytes "tmp") [] = RunOutcome.processExit :=
  C7_error_boundary.2.2.1 (ReadResult.mk (strBytes "C0644 1 a") ReadErr.ok) [] [9] []
    (strBytes "tmp") [] (ControlLine.mk (strBytes "0644") (strBytes "1") (strBytes "a"))
    (by decide) (by decide) (by decide)

/-- C10: when reading the local file fails, the send goroutine ignores the
error and transmits a control line declaring size 0 with an empty content
section followed by the terminator, byte-for-byte what it would send for an
existing empty file, and the caller still gets no error. -/
theorem C10_read_error_ignored (fs : List Nat → Option (List Nat))
    (localFilePath filename : List Nat)
    (h : fs (localFilePath ++ [47] ++ filename) = none) :
    wireBytesOf (sendRoutine fs localFilePath filename) =
      strBytes "C0644 0 " ++ filename ++ [10] ++ [0, 10]
    ∧ sendRoutine fs localFilePath filename =
        sendRoutine (fun _ => some []) localFilePath filename
    ∧ CopyLocalFileToRemote none none = RunOutcome.returned none := by
  have h2 : fs (localFilePath ++ 47 :: filename) = none := by simpa using h
  have hget : (fs (localFilePath ++ 47 :: filename)).getD [] = [] := by
    rw [h2]
    rfl
  refine ⟨?_, ?_, rfl⟩
  · simp [sendRoutine, hget, wireBytesOf, eventWireBytes, fprintln, fprint, List.intercalate,
      List.intersperse, strBytes_C0644_zero_space, decimalBytes, decimalDigitsAux]
  · simp [sendRoutine, hget]

theorem C10_read_error_ignored_witness :
    wireBytesOf (sendRoutine (fun _ => none) (strBytes "d") (strBytes "f")) =
      strBytes "C0644 0 " ++ strBytes "f" ++ [10] ++ [0, 10]
    ∧ sendRoutine (fun _ => none) (strBytes "d") (strBytes "f") =
        sendRoutine (fun _ => some []) (strBytes "d") (strBytes "f")
    ∧ CopyLocalFileToRemote none none = RunOutcome.returned none :=
  C10_read_error_ignored (fun _ => none) (strBytes "d") (strBytes "f") rfl
